import Mathlib

/-!
Shallow embedding of the Todo-List PWA's repository layer
(`src/lib/db/repo.ts` over the Dexie table defined in `src/lib/db/dexie.ts`)
and of its service worker (`src/public/sw.js`), together with theorems
settling the claims about them.

Modelling conventions:
* Timestamps are the ISO-8601 strings the code stores, compared with the
  same lexicographic string order JavaScript uses for `<` and `<=`.
* The Dexie table is a list of records keyed by `id`; `Table.get` is
  `find?`, `Table.update` maps the matching record and reports the number
  of affected rows, `Table.delete` filters (it resolves `undefined` and
  never rejects for a missing key), `Table.put` is an upsert.
* The database hooks of `dexie.ts` are folded into the table primitives:
  the `creating` hook overwrites `createdAt`/`updatedAt` with the current
  time, the `updating` hook overwrites `updatedAt`.  Each repository
  operation takes an explicit clock reading `now`, standing for the
  `new Date().toISOString()` calls made during that operation.
* JavaScript truthiness on optional strings (`if (filter.tag)`,
  `todo.dueDate && ...`, `!todo.title`) is modelled by testing the option
  for presence of a non-empty string.
* Fallible operations return the final store together with an
  `Except RepoError` result; a Dexie transaction whose body throws rolls
  back to the store as it was when the transaction began.
-/

deriving instance DecidableEq for Except

namespace TodoApp

/-! JavaScript string primitives, modelled structurally over the
character list of a `String` so that every definition evaluates inside
the kernel: lexicographic comparison by code unit (the semantics of
JavaScript `<`, `<=` on strings, used by the code on ISO-8601
timestamps) and `String.prototype.trim`. -/

/-- Code-unit comparison of two characters. -/
def charLt (a b : Char) : Bool :=
  decide (a.toNat < b.toNat)

/-- Lexicographic strict order on character lists. -/
def ltList : List Char → List Char → Bool
  | _, [] => false
  | [], _ :: _ => true
  | a :: as, b :: bs => charLt a b || (a == b && ltList as bs)

/-- JavaScript `a < b` on strings. -/
def strLt (a b : String) : Bool :=
  ltList a.data b.data

/-- JavaScript `a <= b` on strings: not `b < a`. -/
def strLe (a b : String) : Bool :=
  !strLt b a

/-- JavaScript `String.prototype.startsWith`. -/
def jsStartsWith (s p : String) : Bool :=
  p.data.isPrefixOf s.data

/-- JavaScript `String.prototype.endsWith`. -/
def jsEndsWith (s p : String) : Bool :=
  p.data.isSuffixOf s.data

/-- JavaScript `String.prototype.trim`: strip whitespace from both
ends. -/
def jsTrim (s : String) : String :=
  ⟨((s.data.dropWhile Char.isWhitespace).reverse.dropWhile Char.isWhitespace).reverse⟩

theorem ltList_irrefl : ∀ x : List Char, ltList x x = false := by
  intro x
  induction x with
  | nil => rfl
  | cons a as ih => simp [ltList, charLt, ih]

theorem ltList_trans :
    ∀ x y z : List Char, ltList x y = true → ltList y z = true → ltList x z = true := by
  intro x
  induction x with
  | nil =>
    intro y z hxy hyz
    cases z with
    | nil =>
      cases y with
      | nil => exact hxy
      | cons b bs => cases hyz
    | cons c cs => rfl
  | cons a as ih =>
    intro y z hxy hyz
    cases y with
    | nil => cases hxy
    | cons b bs =>
      cases z with
      | nil => cases hyz
      | cons c cs =>
        simp only [ltList, Bool.or_eq_true, Bool.and_eq_true] at hxy hyz ⊢
        rcases hxy with hab | ⟨hab, hrest⟩
        · rcases hyz with hbc | ⟨hbc, _⟩
          · exact Or.inl (by
              simp only [charLt, decide_eq_true_iff] at hab hbc ⊢
              omega)
          · exact Or.inl (by rwa [beq_iff_eq.mp hbc] at hab)
        · rcases hyz with hbc | ⟨hbc, hrest'⟩
          · exact Or.inl (by rwa [← beq_iff_eq.mp hab] at hbc)
          · exact Or.inr ⟨by rw [beq_iff_eq.mp hab]; exact hbc, ih bs cs hrest hrest'⟩

theorem ltList_trichotomy :
    ∀ x y : List Char, ltList x y = true ∨ x = y ∨ ltList y x = true := by
  intro x
  induction x with
  | nil =>
    intro y
    cases y with
    | nil => exact Or.inr (Or.inl rfl)
    | cons b bs => exact Or.inl rfl
  | cons a as ih =>
    intro y
    cases y with
    | nil => exact Or.inr (Or.inr rfl)
    | cons b bs =>
      rcases Nat.lt_trichotomy a.toNat b.toNat with hab | hab | hab
      · exact Or.inl (by simp [ltList, charLt, hab])
      · have heq : a = b := Char.eq_of_val_eq (UInt32.ext hab)
        rcases ih bs with h | h | h
        · exact Or.inl (by simp [ltList, heq, h, charLt])
        · exact Or.inr (Or.inl (by rw [heq, h]))
        · exact Or.inr (Or.inr (by simp [ltList, heq, h, charLt]))
      · exact Or.inr (Or.inr (by simp [ltList, charLt, hab]))

theorem strLe_trans (a b c : String) (h1 : strLe a b = true) (h2 : strLe b c = true) :
    strLe a c = true := by
  unfold strLe strLt at *
  cases hca : ltList c.data a.data
  · rfl
  · exfalso
    rcases ltList_trichotomy c.data b.data with h | h | h
    · rw [h] at h2; cases h2
    · rw [h] at hca
      rw [hca] at h1
      cases h1
    · have := ltList_trans _ _ _ h hca
      rw [this] at h1
      cases h1

theorem strLe_total (a b : String) : (strLe a b || strLe b a) = true := by
  unfold strLe strLt
  cases hab : ltList a.data b.data
  · simp
  · cases hba : ltList b.data a.data
    · simp
    · exfalso
      have := ltList_trans _ _ _ hab hba
      rw [ltList_irrefl] at this
      cases this

inductive Priority where
  | low
  | normal
  | high
deriving DecidableEq, Repr

structure Todo where
  id : String
  title : String
  notes : Option String := none
  dueDate : Option String := none
  priority : Priority := .normal
  tags : List String := []
  completed : Bool := false
  createdAt : String
  updatedAt : String
deriving DecidableEq, Repr

abbrev Store := List Todo

inductive RepoError where
  | notFound (id : String)
  | databaseError
deriving DecidableEq, Repr

/-- `db.todos.get(id)`: the record with the given primary key. -/
def tableGet (id : String) (s : Store) : Option Todo :=
  s.find? (fun t => t.id == id)

/-- `db.todos.update(id, changes)` with the `updating` hook folded in:
the record with the key is rewritten by `changes` (which, via the hook,
always sets `updatedAt` to the operation's clock reading); returns the
new table and the number of affected rows (0 when the key is absent —
a missing key is not an error). -/
def tableUpdate (id : String) (changes : Todo → Todo) (s : Store) : Store × Nat :=
  if s.any (fun t => t.id == id) then
    (s.map (fun t => if t.id == id then changes t else t), 1)
  else
    (s, 0)

/-- `db.todos.delete(id)`: removes the record if present; resolves
`undefined` and never rejects, whether or not the key existed. -/
def tableDelete (id : String) (s : Store) : Store :=
  s.filter (fun t => t.id != id)

/-- `db.todos.add(todo)` with the `creating` hook folded in: fails (with
a constraint error) when the key already exists, otherwise appends the
record with `createdAt`/`updatedAt` overwritten by the hook to `now`. -/
def tableAdd (now : String) (todo : Todo) (s : Store) : Option Store :=
  if s.any (fun t => t.id == todo.id) then
    none
  else
    some (s ++ [{ todo with createdAt := now, updatedAt := now }])

/-- `db.todos.put(todo)` with the hooks folded in: upsert.  On an
existing key the whole record is replaced and the `updating` hook sets
`updatedAt := now`; on a fresh key the `creating` hook sets both
timestamps to `now`. -/
def tablePut (now : String) (todo : Todo) (s : Store) : Store :=
  if s.any (fun t => t.id == todo.id) then
    s.map (fun t => if t.id == todo.id then { todo with updatedAt := now } else t)
  else
    s ++ [{ todo with createdAt := now, updatedAt := now }]

/-- `db.todos.clear()`. -/
def tableClear : Store := []

structure CreateTodoDto where
  title : String
  notes : Option String := none
  dueDate : Option String := none
  priority : Option Priority := none
  tags : Option (List String) := none
deriving Repr

/-- `TodoRepository.createTodo`: builds the record (trimming the title,
defaulting priority to `normal` and tags to `[]`, `completed := false`,
both timestamps `now`), adds it under the fresh id, and returns the id.
Any storage failure (such as an id collision in `add`) is wrapped into
`DatabaseError`.  No validation of the trimmed title is performed. -/
def createTodo (dto : CreateTodoDto) (id now : String) (s : Store) :
    Store × Except RepoError String :=
  let todo : Todo :=
    { id := id
      title := jsTrim dto.title
      notes := dto.notes.map jsTrim
      dueDate := dto.dueDate
      priority := dto.priority.getD .normal
      tags := dto.tags.getD []
      completed := false
      createdAt := now
      updatedAt := now }
  match tableAdd now todo s with
  | some s' => (s', .ok id)
  | none => (s, .error .databaseError)

/-- `TodoRepository.getTodo`: the record, or `TodoNotFoundError`. -/
def getTodo (id : String) (s : Store) : Except RepoError Todo :=
  match tableGet id s with
  | some t => .ok t
  | none => .error (.notFound id)

structure UpdateTodoDto where
  title : Option String := none
  notes : Option String := none
  dueDate : Option String := none
  priority : Option Priority := none
  tags : Option (List String) := none
  completed : Option Bool := none
deriving Repr

/-- The `updates` object built by `TodoRepository.updateTodo` applied to
a record: every provided field is copied (title and notes trimmed), and
`updatedAt` is rewritten to `now` (both by the repo and by the
`updating` hook). -/
def applyUpdateDto (dto : UpdateTodoDto) (now : String) (t : Todo) : Todo :=
  { t with
    updatedAt := now
    title := match dto.title with | some x => jsTrim x | none => t.title
    notes := match dto.notes with | some x => some (jsTrim x) | none => t.notes
    dueDate := match dto.dueDate with | some x => some x | none => t.dueDate
    priority := dto.priority.getD t.priority
    tags := dto.tags.getD t.tags
    completed := dto.completed.getD t.completed }

/-- `TodoRepository.updateTodo`: fetches the record (propagating
`TodoNotFoundError`), then runs `db.todos.update`; a zero row count
would also surface as `TodoNotFoundError`. -/
def updateTodo (id : String) (dto : UpdateTodoDto) (now : String) (s : Store) :
    Store × Except RepoError Unit :=
  match getTodo id s with
  | .error e => (s, .error e)
  | .ok _ =>
    match tableUpdate id (applyUpdateDto dto now) s with
    | (_, 0) => (s, .error (.notFound id))
    | (s', _) => (s', .ok ())

/-- `TodoRepository.toggleTodo`: reads the record and updates it with the
negated `completed` flag; `TodoNotFoundError` from the read propagates. -/
def toggleTodo (id now : String) (s : Store) : Store × Except RepoError Unit :=
  match getTodo id s with
  | .error e => (s, .error e)
  | .ok t => updateTodo id { completed := some (!t.completed) } now s

/-- `TodoRepository.bulkComplete`: one transaction looping
`db.todos.update(id, {completed: true, updatedAt: now})` over the ids.
An absent id updates zero rows and is not an error, so the loop body
never throws and the transaction always commits. -/
def bulkComplete (ids : List String) (now : String) (s : Store) :
    Store × Except RepoError Unit :=
  (ids.foldl
      (fun acc id =>
        (tableUpdate id (fun t => { t with completed := true, updatedAt := now }) acc).1)
      s,
    .ok ())

/-- `TodoRepository.bulkDelete`: one transaction looping
`db.todos.delete(id)` over the ids; `Table.delete` never rejects, so the
transaction always commits. -/
def bulkDelete (ids : List String) (s : Store) : Store × Except RepoError Unit :=
  (ids.foldl (fun acc id => tableDelete id acc) s, .ok ())

structure TodoFilter where
  completed : Option Bool := none
  tag : Option String := none
  dueBefore : Option String := none
  dueAfter : Option String := none
  priority : Option Priority := none
  search : Option String := none
deriving Repr

/-- JavaScript truthiness of an optional string field: present and
non-empty. -/
def truthy (o : Option String) : Option String :=
  match o with
  | some x => if x.isEmpty then none else some x
  | none => none

/-- `todo.dueDate && todo.dueDate <= bound` (string comparison on ISO
timestamps, with the truthiness test on `todo.dueDate`). -/
def dueLe (t : Todo) (bound : String) : Bool :=
  match t.dueDate with
  | some d => !d.isEmpty && strLe d bound
  | none => false

/-- `todo.dueDate && todo.dueDate >= bound`. -/
def dueGe (t : Todo) (bound : String) : Bool :=
  match t.dueDate with
  | some d => !d.isEmpty && strLe bound d
  | none => false

/-- JavaScript `haystack.includes(needle)`: substring containment. -/
def strIncludes (haystack needle : String) : Bool :=
  decide (needle.toList <:+: haystack.toList)

/-- The search predicate of `listTodos`: the lower-cased search term is
a substring of the lower-cased title, notes or one of the tags. -/
def searchMatches (term : String) (t : Todo) : Bool :=
  let q := term.toLower
  strIncludes t.title.toLower q ||
    (match t.notes with | some n => strIncludes n.toLower q | none => false) ||
    t.tags.any (fun tag => strIncludes tag.toLower q)

/-- Descending `createdAt` order, as produced by
`db.todos.orderBy('createdAt').reverse()`.  The relative order of
records sharing a `createdAt` is not observable through the claims and
is fixed here by a stable sort. -/
def sortByCreatedAtDesc (s : Store) : Store :=
  s.mergeSort (fun a b => strLe b.createdAt a.createdAt)

/-- `TodoRepository.listTodos`: the descending-`createdAt` collection
with one `.filter` chained per provided (truthy) filter field. -/
def listTodos (f : TodoFilter) (s : Store) : List Todo :=
  let l0 := sortByCreatedAtDesc s
  let l1 := match f.completed with
    | some c => l0.filter (fun t => t.completed == c)
    | none => l0
  let l2 := match truthy f.tag with
    | some tg => l1.filter (fun t => t.tags.contains tg)
    | none => l1
  let l3 := match f.priority with
    | some p => l2.filter (fun t => t.priority == p)
    | none => l2
  let l4 := match truthy f.dueBefore with
    | some b => l3.filter (fun t => dueLe t b)
    | none => l3
  let l5 := match truthy f.dueAfter with
    | some b => l4.filter (fun t => dueGe t b)
    | none => l4
  match truthy f.search with
  | some q => l5.filter (fun t => searchMatches q t)
  | none => l5

/-- The conjunction of the provided filter predicates, one conjunct per
truthy filter field; absent fields impose no constraint. -/
def matchesFilter (f : TodoFilter) (t : Todo) : Bool :=
  (match f.completed with | some c => t.completed == c | none => true) &&
  (match truthy f.tag with | some tg => t.tags.contains tg | none => true) &&
  (match f.priority with | some p => t.priority == p | none => true) &&
  (match truthy f.dueBefore with | some b => dueLe t b | none => true) &&
  (match truthy f.dueAfter with | some b => dueGe t b | none => true) &&
  (match truthy f.search with | some q => searchMatches q t | none => true)

structure Stats where
  total : Nat
  completed : Nat
  pending : Nat
  overdue : Nat
deriving DecidableEq, Repr

/-- `!todo.completed && todo.dueDate && todo.dueDate < now`. -/
def isOverdue (now : String) (t : Todo) : Bool :=
  !t.completed &&
    (match t.dueDate with | some d => !d.isEmpty && strLt d now | none => false)

/-- `TodoRepository.getStats`: the four counts computed from one
snapshot of the table, with `now` the single clock reading taken at the
start. -/
def getStats (now : String) (s : Store) : Stats :=
  { total := s.length
    completed := (s.filter (fun t => t.completed)).length
    pending := (s.filter (fun t => !t.completed)).length
    overdue := (s.filter (fun t => isOverdue now t)).length }

/-- A record of the JSON array passed to `importTodos`, after parsing.
`completed := none` models a record whose `completed` field is missing
or not a boolean. -/
structure RawTodo where
  id : String
  title : String
  notes : Option String := none
  dueDate : Option String := none
  priority : Priority := .normal
  tags : List String := []
  completed : Option Bool := none
  createdAt : String := ""
  updatedAt : String := ""
deriving DecidableEq, Repr

/-- The per-record validation of `importTodos`:
`!todo.id || !todo.title || typeof todo.completed !== 'boolean'` aborts,
so a record is accepted when id and title are truthy (non-empty) and
`completed` is a boolean. -/
def validRaw (r : RawTodo) : Bool :=
  !r.id.isEmpty && !r.title.isEmpty && r.completed.isSome

/-- The entity a validated raw record denotes (its `completed` is known
to be a boolean; `getD` never sees its default on validated input). -/
def rawToTodo (r : RawTodo) : Todo :=
  { id := r.id
    title := r.title
    notes := r.notes
    dueDate := r.dueDate
    priority := r.priority
    tags := r.tags
    completed := r.completed.getD false
    createdAt := r.createdAt
    updatedAt := r.updatedAt }

/-- The body of the import transaction: validate each record in order
and `put` it; the first invalid record throws, aborting the transaction
(`none` — all puts of this transaction are rolled back). -/
def importLoop (now : String) (data : List RawTodo) (s : Store) : Option Store :=
  match data with
  | [] => some s
  | r :: rest =>
    if validRaw r then importLoop now rest (tablePut now (rawToTodo r) s) else none

/-- `TodoRepository.importTodos` on the parsed array: when `overwrite`
is set the table is cleared BEFORE the transaction opens (the clear
commits on its own), then the transaction validates and puts each
record; on success the parsed array's length is returned, on a
validation error the transaction rolls back to the post-clear state and
the error surfaces as `DatabaseError`. -/
def importTodos (data : List RawTodo) (overwrite : Bool) (now : String) (s : Store) :
    Store × Except RepoError Nat :=
  let s1 := if overwrite then tableClear else s
  match importLoop now data s1 with
  | some s2 => (s2, .ok data.length)
  | none => (s1, .error .databaseError)

/-! Service worker (`src/public/sw.js`).  A response is its status and
an opaque body; `Response.ok` is the JavaScript `ok` getter (status in
[200, 300)).  The network is a function from URL path to `Option
Response`, `none` standing for a rejected fetch.  A cache region is an
association list from URL path to stored response snapshot. -/

structure Response where
  status : Nat := 200
  body : String := ""
deriving DecidableEq, Repr

def Response.ok (r : Response) : Bool :=
  200 ≤ r.status && r.status < 300

abbrev Net := String → Option Response

abbrev Region := List (String × Response)

/-- `cache.match(request)`. -/
def regionMatch (url : String) (c : Region) : Option Response :=
  (c.find? (fun p => p.1 == url)).map (fun p => p.2)

/-- `cache.put(request, response)`. -/
def regionPut (url : String) (r : Response) (c : Region) : Region :=
  (url, r) :: c.filter (fun p => p.1 != url)

/-- The five named caches: `CACHE_NAME` (`todo-pwa-v1`, the primary /
precache region) and the four `RUNTIME_CACHE` regions. -/
structure Caches where
  primary : Region := []
  pages : Region := []
  api : Region := []
  static : Region := []
  images : Region := []
deriving DecidableEq, Repr

def OFFLINE_URL : String := "/offline"

def STATIC_CACHE_FILES : List String :=
  ["/", "/offline", "/today", "/completed", "/manifest.webmanifest"]

/-- `cache.addAll(urls)`: fetches every url; the batch rejects (`none`)
if any fetch rejects or yields a non-ok response, and the Cache API
batch operation is atomic, so on failure nothing is added. -/
def addAll (net : Net) (urls : List String) (c : Region) : Option Region :=
  match urls with
  | [] => some c
  | url :: rest =>
    match net url with
    | some r => if r.ok then addAll net rest (regionPut url r c) else none
    | none => none

/-- The lifecycle-relevant state of one service worker generation. -/
structure SWState where
  caches : Caches := {}
  installed : Bool := false
  skipWaitingCalled : Bool := false
deriving DecidableEq, Repr

/-- The `install` event listener: `event.waitUntil` of a promise that
opens the primary cache, runs `addAll(STATIC_CACHE_FILES)` and then
`skipWaiting()` — all inside a `try` whose `catch` only logs.  The
waited-on promise therefore never rejects, so the install event always
completes and the generation always reaches the installed state; on an
`addAll` failure the precache is left unpopulated and `skipWaiting` is
not called. -/
def installEvent (net : Net) (st : SWState) : SWState :=
  match addAll net STATIC_CACHE_FILES st.caches.primary with
  | some primary' =>
    { st with
      caches := { st.caches with primary := primary' }
      installed := true
      skipWaitingCalled := true }
  | none => { st with installed := true }

/-- The outcome a strategy's promise settles with: a response, or a
propagated rejection. -/
inductive FetchOutcome where
  | response (r : Response)
  | failure
deriving DecidableEq, Repr

/-- `networkFirst(request, cacheName)`: try the network; cache a copy
when the response is ok and return it; on a rejected fetch fall back to
the cache entry, and rethrow when there is none. -/
def networkFirst (url : String) (net : Net) (c : Region) : Region × FetchOutcome :=
  match net url with
  | some r => (if r.ok then regionPut url r c else c, .response r)
  | none =>
    match regionMatch url c with
    | some cr => (c, .response cr)
    | none => (c, .failure)

/-- `cacheFirst(request, cacheName)`: return the cache entry when
present; otherwise fetch, caching a copy of an ok response; a rejected
fetch with no cache entry rethrows. -/
def cacheFirst (url : String) (net : Net) (c : Region) : Region × FetchOutcome :=
  match regionMatch url c with
  | some cr => (c, .response cr)
  | none =>
    match net url with
    | some r => (if r.ok then regionPut url r c else c, .response r)
    | none => (c, .failure)

/-- `staleWhileRevalidate(request, cacheName)`: the background fetch
updates the cache with an ok response (modelled as having completed);
an existing entry is returned immediately, otherwise the network result
is awaited. -/
def staleWhileRevalidate (url : String) (net : Net) (c : Region) :
    Region × FetchOutcome :=
  let c' := match net url with
    | some r => if r.ok then regionPut url r c else c
    | none => c
  match regionMatch url c with
  | some cr => (c', .response cr)
  | none =>
    match net url with
    | some r => (c', .response r)
    | none => (c', .failure)

/-- The synthesized minimal offline document (status 200, HTML). -/
def offlineHtml : Response :=
  { status := 200, body := "offline-fallback-html" }

/-- `getOfflineFallback()`: the precached `/offline` document from the
primary cache when present, otherwise the synthesized offline page. -/
def getOfflineFallback (cs : Caches) : Response :=
  match regionMatch OFFLINE_URL cs.primary with
  | some r => r
  | none => offlineHtml

/-- `networkFirstWithOfflineFallback(request)`: network first against
the pages region; on a rejected fetch return the cached page when
present and the offline fallback otherwise (this branch never
rethrows). -/
def networkFirstWithOfflineFallback (url : String) (net : Net) (cs : Caches) :
    Caches × Response :=
  match net url with
  | some r => ({ cs with pages := if r.ok then regionPut url r cs.pages else cs.pages }, r)
  | none =>
    match regionMatch url cs.pages with
    | some cr => (cs, cr)
    | none => (cs, getOfflineFallback cs)

/-- The image-path test of the routing table: `/icons/` paths or an
image-extension suffix. -/
def isImagePath (p : String) : Bool :=
  jsStartsWith p "/icons/" ||
    [".png", ".jpg", ".jpeg", ".svg", ".webp", ".gif"].any (fun ext => jsEndsWith p ext)

/-- `handleRequest(request)` for a same-origin GET: first-match routing
(API prefix > static-asset prefix > image > manifest > default), with
the surrounding `try`/`catch` that converts any strategy failure into
`getOfflineFallback()` — so the requester always receives a response. -/
def handleRequest (path : String) (net : Net) (cs : Caches) : Caches × Response :=
  if jsStartsWith path "/api/" then
    match networkFirst path net cs.api with
    | (api', .response r) => ({ cs with api := api' }, r)
    | (api', .failure) =>
      ({ cs with api := api' }, getOfflineFallback { cs with api := api' })
  else if jsStartsWith path "/_next/static/" then
    match cacheFirst path net cs.static with
    | (st', .response r) => ({ cs with static := st' }, r)
    | (st', .failure) =>
      ({ cs with static := st' }, getOfflineFallback { cs with static := st' })
  else if isImagePath path then
    match cacheFirst path net cs.images with
    | (im', .response r) => ({ cs with images := im' }, r)
    | (im', .failure) =>
      ({ cs with images := im' }, getOfflineFallback { cs with images := im' })
  else if path == "/manifest.webmanifest" then
    match staleWhileRevalidate path net cs.primary with
    | (pr', .response r) => ({ cs with primary := pr' }, r)
    | (pr', .failure) =>
      ({ cs with primary := pr' }, getOfflineFallback { cs with primary := pr' })
  else
    networkFirstWithOfflineFallback path net cs

/-! Shared lemmas about the table primitives and the import loop. -/

theorem importLoop_eq_none_of_invalid (now : String) :
    ∀ (data : List RawTodo) (s : Store),
      (∃ r ∈ data, validRaw r = false) → importLoop now data s = none := by
  intro data
  induction data with
  | nil =>
    intro s h
    rcases h with ⟨r, hr, _⟩
    cases hr
  | cons r rest ih =>
    intro s h
    cases hv : validRaw r
    · simp [importLoop, hv]
    · simp only [importLoop, hv, if_true]
      apply ih
      rcases h with ⟨r', hr', hval⟩
      rcases List.mem_cons.mp hr' with h1 | h2
      · rw [h1, hv] at hval
        cases hval
      · exact ⟨r', h2, hval⟩

theorem importLoop_isSome_of_valid (now : String) :
    ∀ (data : List RawTodo) (s : Store),
      (∀ r ∈ data, validRaw r = true) → ∃ s', importLoop now data s = some s' := by
  intro data
  induction data with
  | nil => intro s _; exact ⟨s, rfl⟩
  | cons r rest ih =>
    intro s h
    have hv : validRaw r = true := h r (List.mem_cons_self r rest)
    simp only [importLoop, hv, if_true]
    exact ih _ (fun q hq => h q (List.mem_cons_of_mem r hq))

theorem tableUpdate_fst (id : String) (f : Todo → Todo) (s : Store) :
    (tableUpdate id f s).1 = s.map (fun t => if t.id == id then f t else t) := by
  unfold tableUpdate
  by_cases h : s.any (fun t => t.id == id) = true
  · simp [h]
  · simp only [h]
    have hall : ∀ t ∈ s, (t.id == id) = false := by
      intro t ht
      by_contra hne
      exact h (List.any_eq_true.mpr ⟨t, ht, by revert hne; cases t.id == id <;> simp⟩)
    simp only [Bool.false_eq_true, if_false]
    rw [show s.map (fun t => if t.id == id then f t else t) = s.map (fun t => t) by
          apply List.map_congr_left
          intro t ht
          simp [hall t ht]]
    simp

theorem tableGet_mapUpdate (id : String) (f : Todo → Todo)
    (hf : ∀ u, (f u).id = u.id) :
    ∀ s : Store,
      tableGet id (s.map (fun u => if u.id == id then f u else u)) =
        (tableGet id s).map f := by
  intro s
  induction s with
  | nil => rfl
  | cons t rest ih =>
    cases h : t.id == id
    · simp only [tableGet, List.map_cons, List.find?_cons, h, Bool.false_eq_true,
        if_false] at ih ⊢
      exact ih
    · simp only [tableGet, List.map_cons, List.find?_cons, h, if_true] at ih ⊢
      rw [hf t, h]
      rfl

theorem updateTodo_of_get (id : String) (dto : UpdateTodoDto) (now : String)
    (s : Store) (t : Todo) (hget : tableGet id s = some t) :
    updateTodo id dto now s =
      (s.map (fun u => if u.id == id then applyUpdateDto dto now u else u), .ok ()) := by
  have hget' : s.find? (fun (u : Todo) => u.id == id) = some t := hget
  have hmem : t ∈ s := List.mem_of_find?_eq_some (p := fun (u : Todo) => u.id == id) hget'
  have hp : (t.id == id) = true := List.find?_some (p := fun (u : Todo) => u.id == id) hget'
  have hany : s.any (fun u => u.id == id) = true :=
    List.any_eq_true.mpr ⟨t, hmem, hp⟩
  simp [updateTodo, getTodo, tableGet, hget', tableUpdate, hany]

theorem foldl_tableDelete (ids : List String) :
    ∀ s : Store,
      ids.foldl (fun acc id => tableDelete id acc) s =
        s.filter (fun t => !ids.contains t.id) := by
  induction ids with
  | nil =>
    intro s
    simp [List.foldl_nil]
  | cons i rest ih =>
    intro s
    rw [List.foldl_cons, ih, tableDelete, List.filter_filter]
    apply List.filter_congr
    intro t _
    rw [List.contains_cons]
    cases h : t.id == i <;> cases hc : rest.contains t.id <;> simp [h, hc] <;>
      simp_all [beq_iff_eq, beq_eq_false_iff_ne]

theorem foldl_bulkComplete (now : String) (ids : List String) :
    ∀ s : Store,
      ids.foldl
          (fun acc i =>
            (tableUpdate i (fun t => { t with completed := true, updatedAt := now }) acc).1)
          s =
        s.map (fun t =>
          if ids.contains t.id then { t with completed := true, updatedAt := now } else t) := by
  induction ids with
  | nil =>
    intro s
    simp [List.foldl_nil]
  | cons i rest ih =>
    intro s
    rw [List.foldl_cons, tableUpdate_fst, ih, List.map_map]
    apply List.map_congr_left
    intro t _
    rw [List.contains_cons]
    by_cases h1 : (t.id == i) = true
    · by_cases h2 : rest.contains t.id = true <;>
        simp [Function.comp, h1, h2]
    · have h1' : (t.id == i) = false := by revert h1; cases t.id == i <;> simp
      by_cases h2 : rest.contains t.id = true <;>
        simp [Function.comp, h1', h2]

/-! Claim theorems. -/

/-- C1 (amended): a record lacking a non-empty id, a non-empty title or
a boolean `completed` makes the whole import fail with no partial puts —
the transaction rolls back to the state it opened on.  But with
`overwrite = true` the clearing of the store is executed BEFORE the
transaction and commits on its own, so a failed import leaves the store
empty rather than leaving the previously stored entities intact. -/
theorem C1_import_validation_atomicity (data : List RawTodo) (ow : Bool)
    (now : String) (s : Store) (h : ∃ r ∈ data, validRaw r = false) :
    importTodos data ow now s = ((if ow then [] else s), .error .databaseError) := by
  have hnone := importLoop_eq_none_of_invalid now data (if ow then tableClear else s) h
  cases ow <;> simp_all [importTodos, tableClear]

/-- C1 counterexample: the store holds one entity; importing a single
record with an empty title under `overwrite = true` fails, yet the
resulting store is empty — not "exactly as it was before the call". -/
theorem C1_counterexample :
    (importTodos [{ id := "x", title := "", completed := some true }] true "T1"
        [{ id := "a", title := "Groceries", createdAt := "T0", updatedAt := "T0" }]).2 =
      .error .databaseError ∧
    (importTodos [{ id := "x", title := "", completed := some true }] true "T1"
        [{ id := "a", title := "Groceries", createdAt := "T0", updatedAt := "T0" }]).1 =
      [] ∧
    ([{ id := "a", title := "Groceries", createdAt := "T0", updatedAt := "T0" }] : Store) ≠
      [] := by
  decide

/-- C1 witness: the amended theorem applied at a concrete, invalid
call with `overwrite = false`: the original store is untouched. -/
theorem C1_witness :
    importTodos [{ id := "x", title := "", completed := some true }] false "T1"
        [{ id := "a", title := "Groceries", createdAt := "T0", updatedAt := "T0" }] =
      ([{ id := "a", title := "Groceries", createdAt := "T0", updatedAt := "T0" }],
        .error .databaseError) :=
  C1_import_validation_atomicity _ _ _ _ (by decide)

/-- C2 (amended): each bulk call runs in one transaction, but mutating
a missing id is not a failure — `Table.update` of an absent key affects
zero rows and `Table.delete` of an absent key is a no-op — so the call
always succeeds and mutates exactly the listed ids that exist:
`bulkComplete` rewrites every listed, present entity (completed := true,
updatedAt := now) and `bulkDelete` removes every listed, present entity;
`bulkDelete([a,b,c])` with b missing therefore deletes a and c. -/
theorem C2_bulk_ops (ids : List String) (now : String) (s : Store) :
    bulkComplete ids now s =
      (s.map (fun t =>
          if ids.contains t.id then { t with completed := true, updatedAt := now } else t),
        .ok ()) ∧
    bulkDelete ids s = (s.filter (fun t => !ids.contains t.id), .ok ()) := by
  constructor
  · unfold bulkComplete
    rw [foldl_bulkComplete]
  · unfold bulkDelete
    rw [foldl_tableDelete]

/-- C2 counterexample: with only entities "a" and "c" stored,
`bulkDelete ["a", "b", "c"]` succeeds and deletes both — "b does not
exist" is not a failure and a and c are not left unaffected. -/
theorem C2_counterexample :
    bulkDelete ["a", "b", "c"]
        [{ id := "a", title := "A", createdAt := "T0", updatedAt := "T0" },
         { id := "c", title := "C", createdAt := "T0", updatedAt := "T0" }] =
      ([], .ok ()) ∧
    ([{ id := "a", title := "A", createdAt := "T0", updatedAt := "T0" },
      { id := "c", title := "C", createdAt := "T0", updatedAt := "T0" }] : Store) ≠ [] := by
  decide

/-- C3 (amended): `createTodo` does not validate the title: it trims it
and stores whatever remains, so a whitespace-only title is accepted (and
stored as the empty string) rather than failing validation.  Creation
under a fresh id appends the new entity — completed = false, priority
defaulting to normal, tags defaulting to empty, createdAt = updatedAt =
now — and the entity is retrievable by `getTodo`. -/
theorem C3_create (dto : CreateTodoDto) (id now : String) (s : Store)
    (hfresh : tableGet id s = none) :
    createTodo dto id now s =
      (s ++ [{ id := id, title := jsTrim dto.title, notes := dto.notes.map jsTrim,
               dueDate := dto.dueDate, priority := dto.priority.getD .normal,
               tags := dto.tags.getD [], completed := false,
               createdAt := now, updatedAt := now }],
        .ok id) ∧
    getTodo id (createTodo dto id now s).1 =
      .ok { id := id, title := jsTrim dto.title, notes := dto.notes.map jsTrim,
            dueDate := dto.dueDate, priority := dto.priority.getD .normal,
            tags := dto.tags.getD [], completed := false,
            createdAt := now, updatedAt := now } := by
  have hfresh' : s.find? (fun (u : Todo) => u.id == id) = none := hfresh
  have hall : ∀ t ∈ s, ((t : Todo).id == id) = false := by
    intro t ht
    have hnot := List.find?_eq_none.mp hfresh' t ht
    revert hnot
    cases t.id == id <;> simp
  have hany : s.any (fun t => t.id == id) = false := by
    cases hA : s.any (fun t => t.id == id)
    · rfl
    · rcases List.any_eq_true.mp hA with ⟨t, ht, hp⟩
      rw [hall t ht] at hp
      cases hp
  have hc : createTodo dto id now s =
      (s ++ [{ id := id, title := jsTrim dto.title, notes := dto.notes.map jsTrim,
               dueDate := dto.dueDate, priority := dto.priority.getD .normal,
               tags := dto.tags.getD [], completed := false,
               createdAt := now, updatedAt := now }],
        .ok id) := by
    simp [createTodo, tableAdd, hany]
  refine ⟨hc, ?_⟩
  rw [hc]
  simp [getTodo, tableGet, List.find?_append, hfresh', List.find?_cons]

/-- C3 counterexample: creating a todo whose title is two spaces
succeeds (it does not fail validation) and stores the empty title. -/
theorem C3_counterexample :
    createTodo { title := "  " } "id0" "T0" [] =
      ([{ id := "id0", title := "", createdAt := "T0", updatedAt := "T0" }],
        .ok "id0") := by
  decide

/-- C3 witness: the amended theorem applied to creating "Buy milk" in
the empty store. -/
theorem C3_witness :
    createTodo { title := "Buy milk" } "id1" "T0" [] =
      ([{ id := "id1", title := "Buy milk", createdAt := "T0", updatedAt := "T0" }],
        .ok "id1") ∧
    getTodo "id1" (createTodo { title := "Buy milk" } "id1" "T0" []).1 =
      .ok { id := "id1", title := "Buy milk", createdAt := "T0", updatedAt := "T0" } :=
  C3_create { title := "Buy milk" } "id1" "T0" [] rfl

/-- True exactly when the install-time fetch of `u` fails: the fetch
rejects or resolves with a non-ok response (either makes `addAll`
reject). -/
def fetchFails (net : Net) (u : String) : Bool :=
  match net u with
  | some r => !r.ok
  | none => true

theorem addAll_eq_none_of_fail (net : Net) :
    ∀ (urls : List String) (c : Region),
      (∃ u ∈ urls, fetchFails net u = true) → addAll net urls c = none := by
  intro urls
  induction urls with
  | nil =>
    intro c h
    rcases h with ⟨u, hu, _⟩
    cases hu
  | cons u rest ih =>
    intro c h
    cases hnet : net u with
    | none =>
      unfold addAll
      rw [hnet]
    | some r =>
      have hred : addAll net (u :: rest) c =
          if r.ok = true then addAll net rest (regionPut u r c) else none := by
        conv_lhs => rw [addAll]
        rw [hnet]
      rw [hred]
      cases hok : r.ok
      · simp
      · simp only [if_pos]
        apply ih
        rcases h with ⟨u', hu', hf⟩
        rcases List.mem_cons.mp hu' with h1 | h2
        · exfalso
          rw [h1] at hf
          unfold fetchFails at hf
          rw [hnet] at hf
          simp [hok] at hf
        · exact ⟨u', h2, hf⟩

/-- C4 (amended): precaching is all-or-nothing — if fetching any of the
shell resources fails, `cache.addAll` rejects, the primary cache is left
unpopulated and `skipWaiting` is not invoked — but the rejection is
caught (and only logged) inside the install handler, so the promise
passed to `event.waitUntil` resolves, the install event completes
successfully, and the generation still reaches the installed (waiting)
state rather than remaining uninstalled. -/
theorem C4_install_failure_swallowed (net : Net) (st : SWState)
    (h : ∃ u ∈ STATIC_CACHE_FILES, fetchFails net u = true) :
    (installEvent net st).installed = true ∧
    (installEvent net st).caches = st.caches ∧
    (installEvent net st).skipWaitingCalled = st.skipWaitingCalled := by
  have hnone : addAll net STATIC_CACHE_FILES st.caches.primary = none :=
    addAll_eq_none_of_fail net STATIC_CACHE_FILES st.caches.primary h
  rw [installEvent, hnone]
  exact ⟨rfl, rfl, rfl⟩

/-- C4 counterexample: with every fetch failing, the install event
still completes — the resulting generation state is installed (with an
empty precache and no `skipWaiting`), contradicting "the generation
remains uninstalled and never reaches the waiting state". -/
theorem C4_counterexample :
    installEvent (fun _ => none) {} =
      { caches := {}, installed := true, skipWaitingCalled := false } := by
  decide

/-- C4 witness: the amended theorem applied to a network that fails
only the offline-shell fetch. -/
theorem C4_witness :
    (installEvent (fun u => if u == "/offline" then none else some { status := 200 })
          {}).installed = true ∧
    (installEvent (fun u => if u == "/offline" then none else some { status := 200 })
          {}).caches = ({} : SWState).caches ∧
    (installEvent (fun u => if u == "/offline" then none else some { status := 200 })
          {}).skipWaitingCalled = ({} : SWState).skipWaitingCalled :=
  C4_install_failure_swallowed _ _ ⟨"/offline", by decide, by decide⟩

/-- C5 (amended): for GET requests on API paths the network-first
strategy fetches; on a resolved response it returns it, caching a copy
exactly when the response is ok (2xx); on a rejected fetch it returns
the matching cache entry when one exists.  When neither is available the
strategy itself rethrows, but `handleRequest` wraps every strategy in a
`catch` that converts the failure into the offline fallback (the
precached `/offline` page, or a synthesized 200 HTML page), so the
network failure is never propagated to the requester. -/
theorem C5_api_network_first (path : String) (net : Net) (cs : Caches)
    (hapi : jsStartsWith path "/api/" = true) :
    (∀ r, net path = some r →
        handleRequest path net cs =
          ({ cs with api := if r.ok then regionPut path r cs.api else cs.api }, r)) ∧
    (net path = none →
      (∀ cr, regionMatch path cs.api = some cr →
          handleRequest path net cs = (cs, cr)) ∧
      (regionMatch path cs.api = none →
        handleRequest path net cs = (cs, getOfflineFallback cs))) := by
  constructor
  · intro r hnet
    rw [handleRequest, if_pos hapi]
    rw [networkFirst, hnet]
  · intro hnet
    constructor
    · intro cr hcr
      rw [handleRequest, if_pos hapi, networkFirst, hnet, hcr]
    · intro hcr
      rw [handleRequest, if_pos hapi, networkFirst, hnet, hcr]

/-- C5 counterexample: on an API path with the network down and an
empty cache, `networkFirst` itself fails, yet the requester receives
the synthesized offline page (status 200) from `handleRequest` — the
network failure does not propagate. -/
theorem C5_counterexample :
    networkFirst "/api/todos" (fun _ => none) [] = ([], .failure) ∧
    handleRequest "/api/todos" (fun _ => none) {} = ({}, offlineHtml) ∧
    offlineHtml.status = 200 := by
  decide

/-- C5 witness: the amended theorem applied to a successful API fetch,
which is cached and returned. -/
theorem C5_witness :
    handleRequest "/api/todos" (fun _ => some { status := 200, body := "data" }) {} =
      ({ api := [("/api/todos", { status := 200, body := "data" })] },
        { status := 200, body := "data" }) :=
  (C5_api_network_first "/api/todos" (fun _ => some { status := 200, body := "data" })
      {} (by decide)).1 { status := 200, body := "data" } rfl

theorem strLe_refl (a : String) : strLe a a = true := by
  unfold strLe strLt
  rw [ltList_irrefl]
  rfl

/-- C6 (amended): `createdAt ≤ updatedAt` is preserved by the writing
operations that go through the repository's timestamping — create
(which sets both fields to the same clock reading), update, toggle and
bulkComplete (which rewrite `updatedAt` to a clock reading not earlier
than any stored `createdAt`).  The non-empty-trimmed-title half of the
claimed invariant is NOT enforced by the repository (see the
counterexample: update — like create and import — accepts a
whitespace-only title and stores it empty), and `importTodos` validates
neither titles beyond truthiness nor timestamps. -/
theorem C6_timestamp_invariant (s : Store) (now : String)
    (hs : ∀ t ∈ s, strLe t.createdAt t.updatedAt = true)
    (hnow : ∀ t ∈ s, strLe t.createdAt now = true) :
    (∀ dto id, ∀ t' ∈ (createTodo dto id now s).1,
        strLe t'.createdAt t'.updatedAt = true) ∧
    (∀ id dto, ∀ t' ∈ (updateTodo id dto now s).1,
        strLe t'.createdAt t'.updatedAt = true) ∧
    (∀ id, ∀ t' ∈ (toggleTodo id now s).1,
        strLe t'.createdAt t'.updatedAt = true) ∧
    (∀ ids, ∀ t' ∈ (bulkComplete ids now s).1,
        strLe t'.createdAt t'.updatedAt = true) := by
  have hupdate : ∀ id dto, ∀ t' ∈ (updateTodo id dto now s).1,
      strLe t'.createdAt t'.updatedAt = true := by
    intro id dto t' ht'
    cases hget : tableGet id s with
    | none =>
      have heq : updateTodo id dto now s = (s, .error (.notFound id)) := by
        simp [updateTodo, getTodo, hget]
      rw [heq] at ht'
      exact hs t' ht'
    | some t =>
      rw [updateTodo_of_get id dto now s t hget] at ht'
      rcases List.mem_map.mp ht' with ⟨u, hu, hue⟩
      by_cases hc : (u.id == id) = true
      · rw [if_pos hc] at hue
        rw [← hue]
        exact hnow u hu
      · rw [if_neg hc] at hue
        rw [← hue]
        exact hs u hu
  refine ⟨?_, hupdate, ?_, ?_⟩
  · intro dto id t' ht'
    by_cases hany : s.any (fun t => t.id == id) = true
    · have heq : (createTodo dto id now s).1 = s := by
        simp [createTodo, tableAdd, hany]
      rw [heq] at ht'
      exact hs t' ht'
    · have hany' : s.any (fun t => t.id == id) = false := by
        revert hany
        cases s.any (fun t => t.id == id) <;> simp
      have heq : (createTodo dto id now s).1 =
          s ++ [{ id := id, title := jsTrim dto.title, notes := dto.notes.map jsTrim,
                  dueDate := dto.dueDate, priority := dto.priority.getD .normal,
                  tags := dto.tags.getD [], completed := false,
                  createdAt := now, updatedAt := now }] := by
        simp [createTodo, tableAdd, hany']
      rw [heq] at ht'
      rcases List.mem_append.mp ht' with h | h
      · exact hs t' h
      · rw [List.mem_singleton] at h
        rw [h]
        exact strLe_refl now
  · intro id t' ht'
    cases hget : tableGet id s with
    | none =>
      have heq : toggleTodo id now s = (s, .error (.notFound id)) := by
        simp [toggleTodo, getTodo, hget]
      rw [heq] at ht'
      exact hs t' ht'
    | some t =>
      have heq : toggleTodo id now s =
          updateTodo id { completed := some (!t.completed) } now s := by
        simp [toggleTodo, getTodo, hget]
      rw [heq] at ht'
      exact hupdate id _ t' ht'
  · intro ids t' ht'
    unfold bulkComplete at ht'
    rw [foldl_bulkComplete] at ht'
    rcases List.mem_map.mp ht' with ⟨u, hu, hue⟩
    by_cases hc : ids.contains u.id = true
    · rw [if_pos hc] at hue
      rw [← hue]
      exact hnow u hu
    · rw [if_neg hc] at hue
      rw [← hue]
      exact hs u hu

/-- C6 counterexample: `updateTodo` with a whitespace-only title stores
the entity with an empty title — the "title is never empty after
trimming" half of the invariant is not preserved by the writing
operations. -/
theorem C6_counterexample :
    (updateTodo "a" { title := some "   " } "T1"
        [{ id := "a", title := "Note", createdAt := "T0", updatedAt := "T0" }]).1 =
      [{ id := "a", title := "", createdAt := "T0", updatedAt := "T1" }] ∧
    ((updateTodo "a" { title := some "   " } "T1"
        [{ id := "a", title := "Note", createdAt := "T0", updatedAt := "T0" }]).1.map
      (fun t => (jsTrim t.title).isEmpty)) = [true] := by
  decide

/-- C6 witness: the amended theorem applied to a one-entity store and a
later clock reading. -/
theorem C6_witness :
    (∀ dto id, ∀ t' ∈ (createTodo dto id "T1"
        [{ id := "a", title := "A", createdAt := "T0", updatedAt := "T0" }]).1,
        strLe t'.createdAt t'.updatedAt = true) ∧
    (∀ id dto, ∀ t' ∈ (updateTodo id dto "T1"
        [{ id := "a", title := "A", createdAt := "T0", updatedAt := "T0" }]).1,
        strLe t'.createdAt t'.updatedAt = true) ∧
    (∀ id, ∀ t' ∈ (toggleTodo id "T1"
        [{ id := "a", title := "A", createdAt := "T0", updatedAt := "T0" }]).1,
        strLe t'.createdAt t'.updatedAt = true) ∧
    (∀ ids, ∀ t' ∈ (bulkComplete ids "T1"
        [{ id := "a", title := "A", createdAt := "T0", updatedAt := "T0" }]).1,
        strLe t'.createdAt t'.updatedAt = true) :=
  C6_timestamp_invariant
    [{ id := "a", title := "A", createdAt := "T0", updatedAt := "T0" }] "T1"
    (by decide) (by decide)

theorem listTodos_eq_filter (f : TodoFilter) (s : Store) :
    listTodos f s = (sortByCreatedAtDesc s).filter (fun t => matchesFilter f t) := by
  unfold listTodos
  rcases f with ⟨c, tg, db, da, pr, se⟩
  dsimp only
  cases c <;> cases htg : truthy tg <;> cases pr <;>
    cases hdb : truthy db <;> cases hda : truthy da <;> cases hse : truthy se <;>
    · simp only [List.filter_filter]
      apply Eq.symm
      first
        | (apply List.filter_eq_self.mpr
           intro t _
           simp [matchesFilter, htg, hdb, hda, hse])
        | (apply List.filter_congr
           intro t _
           simp [matchesFilter, htg, hdb, hda, hse, Bool.and_assoc, Bool.and_comm,
             Bool.and_left_comm])

theorem sortByCreatedAtDesc_pairwise (s : Store) :
    (sortByCreatedAtDesc s).Pairwise
      (fun a b => strLe b.createdAt a.createdAt = true) :=
  List.sorted_mergeSort
    (fun a b c h1 h2 => strLe_trans c.createdAt b.createdAt a.createdAt h2 h1)
    (fun a b => strLe_total b.createdAt a.createdAt)
    s

/-- C7: `listTodos` returns exactly the stored entities satisfying the
conjunction of the provided (truthy) filter predicates — absent
predicates impose no constraint — in weakly descending `createdAt`
order; in particular the filter {completed := false, tag := "work"}
yields exactly the incomplete entities whose tag list contains
"work". -/
theorem C7_list_conjunctive_sorted (f : TodoFilter) (s : Store) :
    (listTodos f s).Pairwise (fun a b => strLe b.createdAt a.createdAt = true) ∧
    (listTodos f s).Perm (s.filter (fun t => matchesFilter f t)) ∧
    (listTodos { completed := some false, tag := some "work" } s).Perm
      (s.filter (fun t => !t.completed && t.tags.contains "work")) := by
  refine ⟨?_, ?_, ?_⟩
  · rw [listTodos_eq_filter]
    exact (sortByCreatedAtDesc_pairwise s).sublist (List.filter_sublist _)
  · rw [listTodos_eq_filter]
    exact List.Perm.filter _ (List.mergeSort_perm s _)
  · rw [listTodos_eq_filter]
    have hperm : ((sortByCreatedAtDesc s).filter
          (fun t => matchesFilter { completed := some false, tag := some "work" } t)).Perm
        (s.filter (fun t => matchesFilter { completed := some false, tag := some "work" } t)) :=
      List.Perm.filter _ (List.mergeSort_perm s _)
    have heq : s.filter
          (fun t => matchesFilter { completed := some false, tag := some "work" } t) =
        s.filter (fun t => !t.completed && t.tags.contains "work") := by
      apply List.filter_congr
      intro t _
      have htr : truthy (some "work") = some "work" := rfl
      simp only [matchesFilter, htr]
      cases t.completed <;> simp [truthy]
    rw [heq] at hperm
    exact hperm

theorem toggleTodo_of_get (id : String) (s : Store) (u : Todo) (now : String)
    (hu : tableGet id s = some u) :
    toggleTodo id now s =
      (s.map (fun v =>
          if v.id == id then { v with completed := !u.completed, updatedAt := now } else v),
        .ok ()) := by
  have heq : toggleTodo id now s =
      updateTodo id { completed := some (!u.completed) } now s := by
    simp [toggleTodo, getTodo, hu]
  rw [heq, updateTodo_of_get id _ now s u hu]
  refine congrArg (fun l => (l, Except.ok ())) ?_
  apply List.map_congr_left
  intro v _
  by_cases hc : (v.id == id) = true
  · rw [if_pos hc, if_pos hc]
    rfl
  · rw [if_neg hc, if_neg hc]

/-- C8: `toggleTodo` is the composition of `getTodo` with `updateTodo`
under the negated completed flag, with the same failure mode
(`TodoNotFoundError` on a missing id); for an existing entity, toggling
twice returns `completed` to its original value while `updatedAt` is
rewritten to the clock reading of each toggle — strictly increasing
both times whenever the clock readings strictly increase. -/
theorem C8_toggle_twice (id t1 t2 : String) (s : Store) (t : Todo)
    (hget : tableGet id s = some t)
    (h1 : strLt t.updatedAt t1 = true) (h2 : strLt t1 t2 = true) :
    (∀ (now : String) (s' : Store),
        toggleTodo id now s' =
          (match getTodo id s' with
           | .ok u => updateTodo id { completed := some (!u.completed) } now s'
           | .error e => (s', .error e))) ∧
    (∀ (now : String) (s' : Store), tableGet id s' = none →
        toggleTodo id now s' = (s', .error (.notFound id))) ∧
    ((toggleTodo id t1 s).2 = .ok () ∧
      tableGet id (toggleTodo id t1 s).1 =
        some { t with completed := !t.completed, updatedAt := t1 } ∧
      strLt t.updatedAt t1 = true) ∧
    ((toggleTodo id t2 (toggleTodo id t1 s).1).2 = .ok () ∧
      tableGet id (toggleTodo id t2 (toggleTodo id t1 s).1).1 =
        some { t with updatedAt := t2 } ∧
      strLt t1 t2 = true) := by
  have hid : ∀ (b : Bool) (now : String) (v : Todo),
      (({ v with completed := b, updatedAt := now } : Todo)).id = v.id := by
    intro b now v
    rfl
  have hs1 := toggleTodo_of_get id s t t1 hget
  have hget1 : tableGet id (toggleTodo id t1 s).1 =
      some { t with completed := !t.completed, updatedAt := t1 } := by
    rw [hs1]
    rw [tableGet_mapUpdate id _ (hid (!t.completed) t1)]
    rw [hget]
    rfl
  have hs2 := toggleTodo_of_get id (toggleTodo id t1 s).1
    { t with completed := !t.completed, updatedAt := t1 } t2 hget1
  refine ⟨?_, ?_, ⟨?_, hget1, h1⟩, ⟨?_, ?_, h2⟩⟩
  · intro now s'
    cases hg : getTodo id s' with
    | ok u => simp [toggleTodo, hg]
    | error e => simp [toggleTodo, hg]
  · intro now s' hnone
    simp [toggleTodo, getTodo, hnone]
  · rw [hs1]
  · rw [hs2]
  · rw [hs2]
    rw [tableGet_mapUpdate id _ (hid (!(!t.completed)) t2)]
    rw [hget1]
    simp [Bool.not_not]

/-- C8 witness: the theorem applied to a concrete store, with clock
readings "T1" and "T2" after the entity's stored "T0". -/
theorem C8_witness :
    (∀ (now : String) (s' : Store),
        toggleTodo "a" now s' =
          (match getTodo "a" s' with
           | .ok u => updateTodo "a" { completed := some (!u.completed) } now s'
           | .error e => (s', .error e))) ∧
    (∀ (now : String) (s' : Store), tableGet "a" s' = none →
        toggleTodo "a" now s' = (s', .error (.notFound "a"))) ∧
    ((toggleTodo "a" "T1"
          [{ id := "a", title := "A", createdAt := "T0", updatedAt := "T0" }]).2 =
        .ok () ∧
      tableGet "a" (toggleTodo "a" "T1"
          [{ id := "a", title := "A", createdAt := "T0", updatedAt := "T0" }]).1 =
        some { id := "a", title := "A", completed := true,
               createdAt := "T0", updatedAt := "T1" } ∧
      strLt "T0" "T1" = true) ∧
    ((toggleTodo "a" "T2" (toggleTodo "a" "T1"
          [{ id := "a", title := "A", createdAt := "T0", updatedAt := "T0" }]).1).2 =
        .ok () ∧
      tableGet "a" (toggleTodo "a" "T2" (toggleTodo "a" "T1"
          [{ id := "a", title := "A", createdAt := "T0", updatedAt := "T0" }]).1).1 =
        some { id := "a", title := "A", completed := false,
               createdAt := "T0", updatedAt := "T2" } ∧
      strLt "T1" "T2" = true) :=
  C8_toggle_twice "a" "T1" "T2"
    [{ id := "a", title := "A", createdAt := "T0", updatedAt := "T0" }]
    { id := "a", title := "A", createdAt := "T0", updatedAt := "T0" }
    rfl (by decide) (by decide)

theorem length_filter_add_length_filter_not {α : Type} (p : α → Bool) (l : List α) :
    (l.filter p).length + (l.filter (fun a => !p a)).length = l.length := by
  induction l with
  | nil => rfl
  | cons a l ih =>
    cases h : p a <;> simp [List.filter_cons, h] <;> omega

theorem length_filter_le_of_imp {α : Type} (p q : α → Bool) (l : List α)
    (himp : ∀ a, p a = true → q a = true) :
    (l.filter p).length ≤ (l.filter q).length := by
  induction l with
  | nil => simp
  | cons a l ih =>
    cases hp : p a
    · cases hq : q a <;> simp [List.filter_cons, hp, hq] <;> omega
    · have hq := himp a hp
      simp [List.filter_cons, hp, hq]
      omega

/-- C9: the counts of `getStats` are mutually consistent on every
snapshot: completed + pending = total and overdue ≤ pending, and — for
stores whose present `dueDate` fields are non-empty strings, as every
ISO timestamp is — an entity is counted overdue exactly when it is
incomplete, has a dueDate, and that dueDate is strictly before the
single clock reading taken by the operation. -/
theorem C9_stats_consistent (now : String) (s : Store)
    (hwf : ∀ t ∈ s,
      (match t.dueDate with | some d => !d.isEmpty | none => true) = true) :
    (getStats now s).completed + (getStats now s).pending = (getStats now s).total ∧
    (getStats now s).overdue ≤ (getStats now s).pending ∧
    (getStats now s).overdue =
      (s.filter (fun t => !t.completed &&
          match t.dueDate with
          | some d => strLt d now
          | none => false)).length := by
  refine ⟨?_, ?_, ?_⟩
  · exact length_filter_add_length_filter_not (fun t => t.completed) s
  · apply length_filter_le_of_imp
    intro a ha
    unfold isOverdue at ha
    exact (Bool.and_eq_true _ _ ▸ ha).1
  · have heq : s.filter (fun t => isOverdue now t) =
        s.filter (fun t => !t.completed &&
          match t.dueDate with
          | some d => strLt d now
          | none => false) := by
      apply List.filter_congr
      intro t ht
      have h := hwf t ht
      cases hdd : t.dueDate with
      | none => simp [isOverdue, hdd]
      | some d =>
        rw [hdd] at h
        simp only [Bool.not_eq_true'] at h
        simp [isOverdue, hdd, h]
    show (s.filter (fun t => isOverdue now t)).length = _
    rw [heq]

/-- C9 witness: the theorem applied to a store with one overdue, one
future-dated and one completed entity. -/
theorem C9_witness :
    (getStats "T5" [
        { id := "a", title := "A", dueDate := some "T1",
          createdAt := "T0", updatedAt := "T0" },
        { id := "b", title := "B", dueDate := some "T9",
          createdAt := "T0", updatedAt := "T0" },
        { id := "c", title := "C", completed := true,
          createdAt := "T0", updatedAt := "T0" }]).completed +
      (getStats "T5" [
        { id := "a", title := "A", dueDate := some "T1",
          createdAt := "T0", updatedAt := "T0" },
        { id := "b", title := "B", dueDate := some "T9",
          createdAt := "T0", updatedAt := "T0" },
        { id := "c", title := "C", completed := true,
          createdAt := "T0", updatedAt := "T0" }]).pending =
      (getStats "T5" [
        { id := "a", title := "A", dueDate := some "T1",
          createdAt := "T0", updatedAt := "T0" },
        { id := "b", title := "B", dueDate := some "T9",
          createdAt := "T0", updatedAt := "T0" },
        { id := "c", title := "C", completed := true,
          createdAt := "T0", updatedAt := "T0" }]).total ∧
    (getStats "T5" [
        { id := "a", title := "A", dueDate := some "T1",
          createdAt := "T0", updatedAt := "T0" },
        { id := "b", title := "B", dueDate := some "T9",
          createdAt := "T0", updatedAt := "T0" },
        { id := "c", title := "C", completed := true,
          createdAt := "T0", updatedAt := "T0" }]).overdue ≤
      (getStats "T5" [
        { id := "a", title := "A", dueDate := some "T1",
          createdAt := "T0", updatedAt := "T0" },
        { id := "b", title := "B", dueDate := some "T9",
          createdAt := "T0", updatedAt := "T0" },
        { id := "c", title := "C", completed := true,
          createdAt := "T0", updatedAt := "T0" }]).pending ∧
    (getStats "T5" [
        { id := "a", title := "A", dueDate := some "T1",
          createdAt := "T0", updatedAt := "T0" },
        { id := "b", title := "B", dueDate := some "T9",
          createdAt := "T0", updatedAt := "T0" },
        { id := "c", title := "C", completed := true,
          createdAt := "T0", updatedAt := "T0" }]).overdue =
      (([{ id := "a", title := "A", dueDate := some "T1",
           createdAt := "T0", updatedAt := "T0" },
         { id := "b", title := "B", dueDate := some "T9",
           createdAt := "T0", updatedAt := "T0" },
         { id := "c", title := "C", completed := true,
           createdAt := "T0", updatedAt := "T0" }] : Store).filter
        (fun t => !t.completed &&
          match t.dueDate with
          | some d => strLt d "T5"
          | none => false)).length :=
  C9_stats_consistent "T5" _ (by decide)

theorem importTodos_eq (data : List RawTodo) (ow : Bool) (now : String) (s : Store) :
    importTodos data ow now s =
      match importLoop now data (if ow then tableClear else s) with
      | some s2 => (s2, .ok data.length)
      | none => ((if ow then tableClear else s), .error .databaseError) := rfl

/-- C10: `importTodos` upserts each record via `Table.put`: with
`overwrite = false`, a valid imported record whose id matches an
existing entity silently replaces that entity (the `updating` hook
stamping `updatedAt` with the operation's clock reading) rather than
failing or being skipped, and on success the returned count is the
length of the parsed input array — independent of how many entities
were newly added. -/
theorem C10_import_upsert (now : String) (s : Store) (r : RawTodo)
    (data : List RawTodo) (hval : validRaw r = true)
    (hex : s.any (fun t => t.id == r.id) = true)
    (hall : ∀ q ∈ data, validRaw q = true) :
    importTodos [r] false now s =
      (s.map (fun u =>
          if u.id == r.id then { rawToTodo r with updatedAt := now } else u),
        .ok 1) ∧
    (importTodos data false now s).2 = .ok data.length := by
  constructor
  · have hloop : importLoop now [r] (if false then tableClear else s) =
        some (tablePut now (rawToTodo r) s) := by
      simp [importLoop, hval]
    have hput : tablePut now (rawToTodo r) s =
        s.map (fun u =>
          if u.id == r.id then { rawToTodo r with updatedAt := now } else u) := by
      have hex' : s.any (fun t => t.id == (rawToTodo r).id) = true := hex
      unfold tablePut
      rw [if_pos hex']
      rfl
    rw [importTodos_eq, hloop, hput]
    rfl
  · rcases importLoop_isSome_of_valid now data (if false then tableClear else s) hall
      with ⟨s', hs'⟩
    rw [importTodos_eq, hs']

/-- C10 witness: the theorem applied to a store holding entity "a" and
an import of one record with the same id: the record replaces the
entity and the returned count is 1 (the input length), although zero
entities were newly added. -/
theorem C10_witness :
    importTodos
        [{ id := "a", title := "New", completed := some true,
           createdAt := "T4", updatedAt := "T4" }] false "T9"
        [{ id := "a", title := "Old", createdAt := "T0", updatedAt := "T0" }] =
      ([{ id := "a", title := "New", completed := true,
          createdAt := "T4", updatedAt := "T9" }], .ok 1) ∧
    (importTodos
        [{ id := "a", title := "New", completed := some true,
           createdAt := "T4", updatedAt := "T4" }] false "T9"
        [{ id := "a", title := "Old", createdAt := "T0", updatedAt := "T0" }]).2 =
      .ok 1 :=
  C10_import_upsert "T9"
    [{ id := "a", title := "Old", createdAt := "T0", updatedAt := "T0" }]
    { id := "a", title := "New", completed := some true,
      createdAt := "T4", updatedAt := "T4" }
    [{ id := "a", title := "New", completed := some true,
       createdAt := "T4", updatedAt := "T4" }]
    (by decide) (by decide) (by decide)

end TodoApp
